import Mathlib

/-!
Verification development for the Billy invoice-ingestion pipeline
(`src-tauri/src` of the Billy repository).

The Rust sources are shallowly embedded: pure helpers become Lean
functions; the SQLite store becomes a list of rows with the query
semantics of the SQL statements; the effectful orchestration code
(`process_invoice`, the coordinator's event handler, the scan task)
becomes explicit state passing, with the outcomes of the external
collaborators (filesystem hashing/stat, PDF text extraction, credential
decryption, the remote OpenAI call) supplied as environment parameters,
and the store writes / extraction invocations recorded in an event trace.

Modelling conventions:
* Rust `f64` values are modelled as `ℚ` (the claims under scrutiny only
  exercise exact decimal arithmetic on them).
* Rust `Result` becomes `Except String`.
* `chrono::NaiveDate::parse_from_str` (an external dependency) is
  modelled for the five format strings the repository uses: optional
  leading-whitespace skipping before each numeric field, 1–2 digit
  month/day, 1–4 digit unsigned year, exact literal separators, an
  empty required remainder, and Gregorian calendar validity.  The
  signed-year extension of chrono is not exercised by the repository's
  inputs and is omitted.
-/

namespace Billy

/-- Rust `models::Invoice` (src-tauri/src/models/mod.rs). -/
structure Invoice where
  id : String
  category : String
  file_path : Option String
  file_hash : String
  file_modified_at : String
  ingestion_status : String
  ocr_text : Option String
  extracted_json : String
  confidence_score : ℚ
  invoice_number : Option String
  invoice_date : Option String
  due_date : Option String
  counterparty_name : Option String
  total_amount : String
  currency : String
  tax_amount : Option String
  net_amount : Option String
  status : String
  paid_at : Option String
  created_at : String
  updated_at : String
deriving DecidableEq, Repr

/-- Rust `models::ExtractedInvoiceData` (src-tauri/src/models/mod.rs). -/
structure ExtractedInvoiceData where
  invoice_number : Option String
  invoice_date : Option String
  due_date : Option String
  counterparty_name : Option String
  total_amount : Option ℚ
  currency : Option String
  tax_amount : Option ℚ
  net_amount : Option ℚ
  extraction_notes : String
  confidence_score : Option ℚ
deriving DecidableEq, Repr

/-- Rust `models::Settings` (src-tauri/src/models/mod.rs). -/
structure Settings where
  revenue_folder : Option String
  payable_folder : Option String
  openai_api_key : Option String
  ocr_language : String
deriving DecidableEq, Repr

/-! ### utils/mod.rs -/

/-- Zero-pad a natural number to two digits (chrono `%m`/`%d` output). -/
def pad2 (n : Nat) : String :=
  if n < 10 then "0" ++ toString n else toString n

/-- Zero-pad a natural number to four digits (chrono `%Y` output). -/
def pad4 (n : Nat) : String :=
  if n < 10 then "000" ++ toString n
  else if n < 100 then "00" ++ toString n
  else if n < 1000 then "0" ++ toString n
  else toString n

/-- `date.format("%Y-%m-%d")` for a parsed (year, month, day) triple. -/
def formatYmd (y m d : Nat) : String :=
  pad4 y ++ "-" ++ pad2 m ++ "-" ++ pad2 d

/-- Proleptic-Gregorian leap-year test (chrono's calendar). -/
def isLeapYear (y : Nat) : Bool :=
  (y % 4 == 0 && y % 100 != 0) || (y % 400 == 0)

/-- Number of days of month `m` in year `y`. -/
def daysInMonth (y m : Nat) : Nat :=
  if m == 2 then (if isLeapYear y then 29 else 28)
  else if m == 4 || m == 6 || m == 9 || m == 11 then 30
  else 31

/-- Calendar validity as checked by chrono's `NaiveDate::from_ymd_opt`. -/
def validYmd (y m d : Nat) : Bool :=
  1 ≤ m && m ≤ 12 && 1 ≤ d && d ≤ daysInMonth y m

/-- Rust `str::trim`: remove whitespace characters from both ends. -/
def trimStr (s : String) : String :=
  ⟨((s.data.dropWhile Char.isWhitespace).reverse.dropWhile Char.isWhitespace).reverse⟩

/-- Rust `str::is_empty`. -/
def strEmpty (s : String) : Bool :=
  s.data.isEmpty

/-- chrono: leading-whitespace skip performed before each numeric field. -/
def dropSpaces (s : List Char) : List Char :=
  s.dropWhile (fun c => c.isWhitespace)

/-- chrono `scan::number`: consume 1 to `maxDigits` leading ASCII digits. -/
def scanNumber (s : List Char) (maxDigits : Nat) : Option (Nat × List Char) :=
  let digits := (s.takeWhile Char.isDigit).take maxDigits
  if digits.isEmpty then none
  else some (digits.foldl (fun a c => a * 10 + (c.toNat - 48)) 0, s.drop digits.length)

/-- chrono literal item: the next character must match exactly. -/
def matchLit (s : List Char) (c : Char) : Option (List Char) :=
  match s with
  | [] => none
  | x :: rest => if x = c then some rest else none

/-- The two field orders occurring in the repository's format strings,
together with the literal separator character. -/
inductive DateFmt where
  | ymd (sep : Char)
  | dmy (sep : Char)
deriving DecidableEq, Repr

/-- Model of `chrono::NaiveDate::parse_from_str(s, fmt)` for the five
format strings used by `utils::normalize_date`: returns the parsed
(year, month, day) on success, `none` on any parse or validity error. -/
def parse_from_str (s : String) (fmt : DateFmt) : Option (Nat × Nat × Nat) :=
  match fmt with
  | .ymd sep =>
    match scanNumber (dropSpaces s.data) 4 with
    | none => none
    | some (y, r1) =>
      match matchLit r1 sep with
      | none => none
      | some r2 =>
        match scanNumber (dropSpaces r2) 2 with
        | none => none
        | some (m, r3) =>
          match matchLit r3 sep with
          | none => none
          | some r4 =>
            match scanNumber (dropSpaces r4) 2 with
            | none => none
            | some (d, r5) =>
              if r5.isEmpty && validYmd y m d then some (y, m, d) else none
  | .dmy sep =>
    match scanNumber (dropSpaces s.data) 2 with
    | none => none
    | some (d, r1) =>
      match matchLit r1 sep with
      | none => none
      | some r2 =>
        match scanNumber (dropSpaces r2) 2 with
        | none => none
        | some (m, r3) =>
          match matchLit r3 sep with
          | none => none
          | some r4 =>
            match scanNumber (dropSpaces r4) 4 with
            | none => none
            | some (y, r5) =>
              if r5.isEmpty && validYmd y m d then some (y, m, d) else none

/-- The format list of `utils::normalize_date`, in source order:
`["%Y-%m-%d", "%d.%m.%Y", "%d/%m/%Y", "%Y/%m/%d", "%Y.%m.%d"]`. -/
def date_formats : List DateFmt :=
  [.ymd '-', .dmy '.', .dmy '/', .ymd '/', .ymd '.']

/-- The `for fmt in formats` loop body of `normalize_date`: first
successful parse wins. -/
def firstParse (raw : String) : List DateFmt → Option (Nat × Nat × Nat)
  | [] => none
  | f :: rest =>
    match parse_from_str raw f with
    | some ymd => some ymd
    | none => firstParse raw rest

/-- Rust `utils::normalize_date` (src-tauri/src/utils/mod.rs lines 44–57). -/
def normalize_date (value : Option String) : Option String :=
  match value with
  | none => none
  | some v =>
    let raw := trimStr v
    if strEmpty raw then none
    else
      match firstParse raw date_formats with
      | some (y, m, d) => some (formatYmd y m d)
      | none => some raw

/-- Rust `utils::format_decimal`: `format!("{:.2}", value)`.  Modelled on
`ℚ`: round to the nearest hundredth and print with two decimals. -/
def format_decimal (value : ℚ) : String :=
  let cents : Int := round (value * 100)
  let sign := if cents < 0 then "-" else ""
  let a := cents.natAbs
  sign ++ toString (a / 100) ++ "." ++ pad2 (a % 100)

/-! ### services/openai.rs -/

/-- Rust `openai::compute_confidence` (src-tauri/src/services/openai.rs
lines 157–175). -/
def compute_confidence (data : ExtractedInvoiceData) : ℚ :=
  let score : ℚ := 0.4
  let score := if data.invoice_number.isSome then score + 0.1 else score
  let score := if data.invoice_date.isSome then score + 0.1 else score
  let score := if data.counterparty_name.isSome then score + 0.1 else score
  let score := if data.total_amount.isSome then score + 0.1 else score
  let score := if data.tax_amount.isSome || data.net_amount.isSome then score + 0.05 else score
  min (max score 0) 1

/-- The post-deserialization normalization of
`OpenAIExtractor::extract_invoice_data` (openai.rs lines 66–76):
default the currency, default the notes, and fill in a missing
confidence score with `compute_confidence`. -/
def postprocess_extracted (data : ExtractedInvoiceData) : ExtractedInvoiceData :=
  let data := if data.currency.isNone then { data with currency := some "EUR" } else data
  let data :=
    if strEmpty (trimStr data.extraction_notes) then { data with extraction_notes := "notes missing" }
    else data
  if data.confidence_score.isNone then
    { data with confidence_score := some (compute_confidence data) }
  else data

/-- Rust `OpenAIExtractor::extract_invoice_data`, with the network call,
JSON parsing and schema validation (external collaborators) summarized
by the `call_result` outcome: on success the deserialized payload is
post-processed by `postprocess_extracted` and returned with the raw
JSON text. -/
def extract_invoice_data (call_result : Except String (ExtractedInvoiceData × String)) :
    Except String (ExtractedInvoiceData × String) :=
  match call_result with
  | .error e => .error e
  | .ok (data, raw) => .ok (postprocess_extracted data, raw)

/-! ### services/processor.rs

The SQLite `invoices` table becomes a list of rows.  `id` is the
primary key (`INSERT OR REPLACE` replaces the row with the same id),
and `get_invoice_by_path` returns the first row whose `file_path`
column equals the query, as the prepared `SELECT ... WHERE file_path =
?1` statement does. -/

/-- The invoice store: the rows of the `invoices` table. -/
abbrev Store := List Invoice

/-- Rust `Database::get_invoice_by_path` (db/mod.rs lines 147–182). -/
def get_invoice_by_path (db : Store) (path : String) : Option Invoice :=
  db.find? (fun r => decide (r.file_path = some path))

/-- Rust `Database::upsert_invoice` (db/mod.rs lines 75–108):
`INSERT OR REPLACE` keyed by the `id` primary key. -/
def upsert_invoice (db : Store) (inv : Invoice) : Store :=
  if db.any (fun r => decide (r.id = inv.id)) then
    db.map (fun r => if r.id = inv.id then inv else r)
  else
    db ++ [inv]

/-- Rust `Database::mark_invoice_missing` (db/mod.rs lines 247–253):
`UPDATE invoices SET ingestion_status = 'missing', updated_at =
datetime('now') WHERE file_path = ?1`. -/
def mark_invoice_missing (db : Store) (file_path : String) (now : String) : Store :=
  db.map (fun r =>
    if r.file_path = some file_path then
      { r with ingestion_status := "missing", updated_at := now }
    else r)

/-- Observable side effects of a processing run: store writes, the text
extraction call, the structured (OpenAI) extraction call, and
`Database::log_processing` inserts, in program order. -/
inductive Ev where
  | upsert (inv : Invoice)
  | textExtract
  | openaiCall
  | logProcess (invoice_id : Option String) (file_hash : Option String)
      (ptype : String) (outcome : String) (message : Option String)
deriving DecidableEq, Repr

deriving instance DecidableEq for Except

/-- Outcomes of the external collaborators consumed by one
`process_invoice` run: the content hash and modified time of the file
(`sha256_file`, `modified_time_rfc3339`), the two `now_rfc3339` reads,
the fresh UUID, and the results of PDF text extraction, API-key
decryption, and the OpenAI call (deserialized payload plus raw JSON,
before the in-repo post-processing). -/
structure ProcEnv where
  file_hash : String
  file_modified_at : String
  now : String
  now2 : String
  fresh_id : String
  text_result : Except String String
  decrypt_result : Except String String
  openai_result : Except String (ExtractedInvoiceData × String)
deriving DecidableEq, Repr

/-- The result of a `process_invoice` run: the returned value, the
store after the run, and the trace of side effects. -/
structure ProcResult where
  result : Except String Invoice
  db : Store
  trace : List Ev
deriving DecidableEq, Repr

/-- Rust `processor::apply_extracted` (processor.rs lines 113–128).
Total amount and currency are overwritten only when present; tax and
net amounts are overwritten unconditionally; a missing confidence
score falls back to 0.5. -/
def apply_extracted (invoice : Invoice) (data : ExtractedInvoiceData) (raw_json : String) :
    Invoice :=
  { invoice with
    extracted_json := raw_json
    invoice_number := data.invoice_number
    invoice_date := normalize_date data.invoice_date
    due_date := normalize_date data.due_date
    counterparty_name := data.counterparty_name
    total_amount :=
      match data.total_amount with
      | some total => format_decimal total
      | none => invoice.total_amount
    currency :=
      match data.currency with
      | some c => c
      | none => invoice.currency
    tax_amount := data.tax_amount.map format_decimal
    net_amount := data.net_amount.map format_decimal
    confidence_score := data.confidence_score.getD 0.5 }

/-- The fresh record built by `unwrap_or_else` in `process_invoice`
(processor.rs lines 34–56). -/
def initial_invoice (path category : String) (env : ProcEnv) : Invoice where
  id := env.fresh_id
  category := category
  file_path := some path
  file_hash := env.file_hash
  file_modified_at := env.file_modified_at
  ingestion_status := "pending"
  ocr_text := none
  extracted_json := "{}"
  confidence_score := 0
  invoice_number := none
  invoice_date := none
  due_date := none
  counterparty_name := none
  total_amount := "0.00"
  currency := "EUR"
  tax_amount := none
  net_amount := none
  status := "open"
  paid_at := none
  created_at := env.now
  updated_at := env.now

/-- The record as persisted by the intermediate write (processor.rs
lines 58–62): existing record or fresh record, restamped with the new
fingerprint, modified time, path, `pending` status and update time. -/
def pending_invoice (existing : Option Invoice) (path category : String) (env : ProcEnv) :
    Invoice :=
  let base := existing.getD (initial_invoice path category env)
  { base with
    file_hash := env.file_hash
    file_modified_at := env.file_modified_at
    file_path := some path
    ingestion_status := "pending"
    updated_at := env.now }

/-- The record as persisted by the final write (processor.rs lines
70, 79–81): OCR text attached, extraction merged, status `processed`,
update time restamped. -/
def processed_invoice (pend : Invoice) (text : String) (data : ExtractedInvoiceData)
    (raw : String) (env : ProcEnv) : Invoice :=
  { apply_extracted { pend with ocr_text := some text } data raw with
    ingestion_status := "processed"
    updated_at := env.now2 }

/-- The non-short-circuit tail of `process_invoice` (processor.rs lines
33–95), from the intermediate pending write onward. -/
def process_invoice_continue (db : Store) (path category : String) (settings : Settings)
    (env : ProcEnv) (existing : Option Invoice) : ProcResult :=
  let inv1 := pending_invoice existing path category env
  let db1 := upsert_invoice db inv1
  match env.text_result with
  | .error e => ⟨.error e, db1, [.upsert inv1, .textExtract]⟩
  | .ok text =>
    match settings.openai_api_key with
    | none => ⟨.error "OpenAI API key missing", db1, [.upsert inv1, .textExtract]⟩
    | some _api_key =>
      match env.decrypt_result with
      | .error e => ⟨.error e, db1, [.upsert inv1, .textExtract]⟩
      | .ok _key =>
        match extract_invoice_data env.openai_result with
        | .error e => ⟨.error e, db1, [.upsert inv1, .textExtract, .openaiCall]⟩
        | .ok (data, raw) =>
          let inv4 := processed_invoice inv1 text data raw env
          ⟨.ok inv4, upsert_invoice db1 inv4,
            [.upsert inv1, .textExtract, .openaiCall, .upsert inv4,
             .logProcess (some inv4.id) (some inv4.file_hash) "process" "success" none]⟩

/-- Rust `processor::process_invoice` (processor.rs lines 12–96). -/
def process_invoice (db : Store) (path category : String) (settings : Settings)
    (env : ProcEnv) : ProcResult :=
  match get_invoice_by_path db path with
  | some ex =>
    if ex.file_hash = env.file_hash ∧ ex.file_modified_at = env.file_modified_at then
      ⟨.ok ex, db, []⟩
    else
      process_invoice_continue db path category settings env (some ex)
  | none => process_invoice_continue db path category settings env none

/-- Rust `processor::mark_failed` (processor.rs lines 98–111): returns
the failed record, the store after the write, and the trace of the
write and the failure log entry. -/
def mark_failed (db : Store) (invoice : Invoice) (message : String) (now : String) :
    Invoice × Store × List Ev :=
  let invoice := { invoice with ingestion_status := "failed", updated_at := now }
  (invoice, upsert_invoice db invoice,
   [.upsert invoice,
    .logProcess (some invoice.id) (some invoice.file_hash) "process" "failed" (some message)])

/-! ### services/watcher.rs -/

/-- Rust `watcher::FileEventKind`. -/
inductive FileEventKind where
  | created
  | modified
  | deleted
deriving DecidableEq, Repr

/-- Rust `watcher::FileEvent` (paths modelled as strings). -/
structure FileEvent where
  path : String
  category : String
  kind : FileEventKind
deriving DecidableEq, Repr

/-- The `for _ in 0..3` loop of `watcher::debounce_file_event`
(watcher.rs lines 82–97).  Each list entry is one `fs::metadata`
outcome: `some size` on success, `none` when the stat fails.  After the
loop the function returns `last_size.unwrap_or(0) > 0`. -/
def debounce_go : List (Option Nat) → Option Nat → Bool
  | [], last_size => decide (last_size.getD 0 > 0)
  | s :: rest, last_size =>
    match s with
    | some size =>
      if some size = last_size then decide (size > 0) else debounce_go rest (some size)
    | none => false

/-- Rust `watcher::debounce_file_event`, over the three size samples it
takes (the fixed sleep between samples has no observable effect in this
model). -/
def debounce_file_event (s1 s2 s3 : Option Nat) : Bool :=
  debounce_go [s1, s2, s3] none

/-! ### services/state.rs -/

/-- Notifications emitted to the UI layer (`app_handle.emit`). -/
inductive Emit where
  | invoiceUpdated (inv : Invoice)
  | invoiceMissing (path : String)
  | processingError (msg : String)
deriving DecidableEq, Repr

/-- External outcomes consumed by one `handle_event` run: the three
debounce stat samples, the store's `datetime('now')` for
`mark_invoice_missing`, the `now_rfc3339` used by `mark_failed`, and
the processing environment of the spawned `process_invoice` task. -/
structure EventEnv where
  s1 : Option Nat
  s2 : Option Nat
  s3 : Option Nat
  missing_now : String
  fail_now : String
  proc : ProcEnv
deriving DecidableEq, Repr

/-- Rust `state::handle_event` (state.rs lines 110–159): a `deleted`
event marks the record missing and notifies; any other event passes
the debounce filter and, if stable, runs `process_invoice`; on success
the record is published, on failure the record is looked up by path
and, when found, `mark_failed` is applied before the error is
published. -/
def handle_event (ev : FileEvent) (db : Store) (settings : Settings) (env : EventEnv) :
    Store × List Ev × List Emit :=
  match ev.kind with
  | .deleted =>
    (mark_invoice_missing db ev.path env.missing_now, [], [.invoiceMissing ev.path])
  | _ =>
    if debounce_file_event env.s1 env.s2 env.s3 = false then
      (db, [], [])
    else
      let pr := process_invoice db ev.path ev.category settings env.proc
      match pr.result with
      | .ok invoice => (pr.db, pr.trace, [.invoiceUpdated invoice])
      | .error err =>
        match get_invoice_by_path pr.db ev.path with
        | some invoice =>
          let m := mark_failed pr.db invoice err env.fail_now
          (m.2.1, pr.trace ++ m.2.2, [.processingError err])
        | none => (pr.db, pr.trace, [.processingError err])

/-- The per-file task spawned by `AppState::scan_folder` (state.rs
lines 87–103): run `process_invoice` and publish the result — on
failure only the error message is emitted. -/
def scan_task (db : Store) (path category : String) (settings : Settings) (env : ProcEnv) :
    Store × List Ev × List Emit :=
  let pr := process_invoice db path category settings env
  match pr.result with
  | .ok invoice => (pr.db, pr.trace, [.invoiceUpdated invoice])
  | .error err => (pr.db, pr.trace, [.processingError err])

/-- A side effect that records a failure: an `upsert` of a record in
`failed` status, or a `failed` processing-log entry. -/
def isFailureMark : Ev → Bool
  | .upsert i => decide (i.ingestion_status = "failed")
  | .logProcess _ _ _ oc _ => decide (oc = "failed")
  | _ => false

/-- Store well-formedness: the `id` primary key is unique. -/
def StoreWf (db : Store) : Prop :=
  (db.map Invoice.id).Nodup

/-! ### Concrete fixtures used by witnesses and counterexamples -/

/-- Settings with a configured (encrypted) API key. -/
def settingsA : Settings :=
  ⟨none, none, some "enc-key", "deu"⟩

/-- An extraction payload with no explicit confidence score. -/
def dataPlain : ExtractedInvoiceData :=
  ⟨some "R-1", some "2024-03-01", none, none, some 100, none, none, none, "ok", none⟩

/-- An extraction payload whose explicit confidence score is 5. -/
def dataOver : ExtractedInvoiceData :=
  ⟨none, none, none, none, none, none, none, none, "notes", some 5⟩

/-- A processing environment whose structured extraction returns the
out-of-range explicit confidence score of `dataOver`. -/
def envOver : ProcEnv :=
  ⟨"h1", "t1", "n1", "n2", "id-1", .ok "text", .ok "key", .ok (dataOver, "{}")⟩

/-- A processing environment whose text extraction fails. -/
def envFail : ProcEnv :=
  ⟨"h1", "t1", "n1", "n2", "id-1", .error "boom", .ok "key", .error "x"⟩

/-- A processing environment that succeeds end to end with `dataPlain`. -/
def envPlain : ProcEnv :=
  ⟨"h1", "t1", "n1", "n2", "id-1", .ok "text", .ok "key", .ok (dataPlain, "{}")⟩

/-- A processing environment observing a changed file (hash `h2`). -/
def envChanged : ProcEnv :=
  ⟨"h2", "t2", "n3", "n4", "id-9", .ok "text2", .ok "key", .ok (dataPlain, "{}")⟩

/-- A stored record for path `a.pdf` with fingerprint `h1` / `t1`. -/
def invoiceB : Invoice :=
  ⟨"id-b", "revenue", some "a.pdf", "h1", "t1", "processed", none, "{}", 1,
   none, none, none, none, "10.00", "EUR", some "1.00", some "9.00", "open", none, "c0", "u0"⟩

/-- The record returned by the successful `envOver` run on an empty
store (used to exhibit the out-of-range stored confidence). -/
def invoiceOverOut : Invoice :=
  ((process_invoice [] "a.pdf" "revenue" settingsA envOver).result.toOption).getD
    (initial_invoice "a.pdf" "revenue" envOver)

/-- The record returned by the successful `envPlain` run on an empty
store. -/
def invoicePlainOut : Invoice :=
  ((process_invoice [] "b.pdf" "revenue" settingsA envPlain).result.toOption).getD
    (initial_invoice "b.pdf" "revenue" envPlain)

/-- A deletion event for path `a.pdf`. -/
def evDel : FileEvent :=
  ⟨"a.pdf", "revenue", .deleted⟩

/-- A modification event for path `a.pdf`. -/
def evMod : FileEvent :=
  ⟨"a.pdf", "revenue", .modified⟩

/-- An event environment: stable debounce samples, failing processing. -/
def envEvFail : EventEnv :=
  ⟨some 3, some 3, some 3, "m1", "f1", envFail⟩

/-! ### Helper lemmas about the store and the orchestrator -/

theorem lookup_mem {db : Store} {path : String} {ex : Invoice}
    (h : get_invoice_by_path db path = some ex) : ex ∈ db :=
  List.mem_of_find?_eq_some h

theorem lookup_path {db : Store} {path : String} {ex : Invoice}
    (h : get_invoice_by_path db path = some ex) : ex.file_path = some path := by
  have h2 := List.find?_some h
  simpa using h2

theorem any_id_of_lookup {db : Store} {path : String} {ex inv : Invoice}
    (h : get_invoice_by_path db path = some ex) (hid : inv.id = ex.id) :
    db.any (fun r => decide (r.id = inv.id)) = true :=
  List.any_eq_true.2 ⟨ex, lookup_mem h, by simp [hid]⟩

theorem any_id_eq_false {db : Store} {i : String} (h : ∀ r ∈ db, r.id ≠ i) :
    db.any (fun r => decide (r.id = i)) = false := by
  rw [List.any_eq_false]
  intro r hr
  simp [h r hr]

theorem upsert_map_id {db : Store} {inv : Invoice}
    (h : db.any (fun r => decide (r.id = inv.id)) = true) :
    (upsert_invoice db inv).map Invoice.id = db.map Invoice.id := by
  simp only [upsert_invoice]
  rw [if_pos h, List.map_map]
  apply List.map_congr_left
  intro r _
  by_cases hr : r.id = inv.id
  · simp only [Function.comp_apply, if_pos hr]
    exact hr.symm
  · simp only [Function.comp_apply, if_neg hr]

theorem upsert_length {db : Store} {inv : Invoice}
    (h : db.any (fun r => decide (r.id = inv.id)) = true) :
    (upsert_invoice db inv).length = db.length := by
  simp only [upsert_invoice]
  rw [if_pos h]
  exact List.length_map _ _

theorem upsert_any_id {db : Store} {inv ex : Invoice}
    (hmem : ex ∈ db) (hid : ex.id = inv.id)
    (h : db.any (fun r => decide (r.id = inv.id)) = true) :
    (upsert_invoice db inv).any (fun r => decide (r.id = inv.id)) = true := by
  simp only [upsert_invoice]
  rw [if_pos h]
  refine List.any_eq_true.2 ⟨inv, List.mem_map.2 ⟨ex, hmem, by simp [hid]⟩, by simp⟩

theorem find_path_replace {db : Store} {path : String} {inv ex : Invoice}
    (wf : (db.map Invoice.id).Nodup)
    (hfind : get_invoice_by_path db path = some ex)
    (hid : inv.id = ex.id) (hpath : inv.file_path = some path) :
    get_invoice_by_path (db.map (fun r => if r.id = inv.id then inv else r)) path
      = some inv := by
  simp only [get_invoice_by_path] at *
  induction db with
  | nil => simp at hfind
  | cons r rest ih =>
    rw [List.map_cons, List.nodup_cons] at wf
    by_cases hc : r.file_path = some path
    · have hfr : ex = r := by
        rw [List.find?_cons_of_pos _ (by simp [hc])] at hfind
        exact (Option.some_inj.mp hfind).symm
      have hrid : r.id = inv.id := by rw [hid, hfr]
      rw [List.map_cons, if_pos hrid]
      exact List.find?_cons_of_pos _ (by simp [hpath])
    · have hfind2 : rest.find? (fun r => decide (r.file_path = some path)) = some ex := by
        rwa [List.find?_cons_of_neg _ (by simp [hc])] at hfind
      have hexmem : ex ∈ rest := List.mem_of_find?_eq_some hfind2
      have hrid : ¬ r.id = inv.id := by
        rw [hid]
        intro hcon
        apply wf.1
        rw [hcon]
        exact List.mem_map_of_mem Invoice.id hexmem
      rw [List.map_cons, if_neg hrid]
      rw [List.find?_cons_of_neg _ (by simp [hc])]
      exact ih wf.2 hfind2

theorem lookup_upsert_replace {db : Store} {path : String} {inv ex : Invoice}
    (wf : StoreWf db)
    (hfind : get_invoice_by_path db path = some ex)
    (hid : inv.id = ex.id) (hpath : inv.file_path = some path) :
    get_invoice_by_path (upsert_invoice db inv) path = some inv := by
  have hany := any_id_of_lookup hfind hid
  simp only [upsert_invoice]
  rw [if_pos hany]
  exact find_path_replace wf hfind hid hpath

theorem lookup_upsert_append {db : Store} {path : String} {inv : Invoice}
    (hnone : get_invoice_by_path db path = none)
    (hany : db.any (fun r => decide (r.id = inv.id)) = false)
    (hpath : inv.file_path = some path) :
    get_invoice_by_path (upsert_invoice db inv) path = some inv := by
  simp only [upsert_invoice]
  rw [if_neg (by simp [hany])]
  simp only [get_invoice_by_path] at *
  rw [List.find?_append, hnone]
  simp [hpath]

/-! #### Field computations for the intermediate and final records -/

theorem pending_status (exo : Option Invoice) (path category : String) (env : ProcEnv) :
    (pending_invoice exo path category env).ingestion_status = "pending" := rfl

theorem pending_hash (exo : Option Invoice) (path category : String) (env : ProcEnv) :
    (pending_invoice exo path category env).file_hash = env.file_hash := rfl

theorem pending_mtime (exo : Option Invoice) (path category : String) (env : ProcEnv) :
    (pending_invoice exo path category env).file_modified_at = env.file_modified_at := rfl

theorem pending_path (exo : Option Invoice) (path category : String) (env : ProcEnv) :
    (pending_invoice exo path category env).file_path = some path := rfl

theorem pending_id_some (ex : Invoice) (path category : String) (env : ProcEnv) :
    (pending_invoice (some ex) path category env).id = ex.id := rfl

theorem pending_id_none (path category : String) (env : ProcEnv) :
    (pending_invoice none path category env).id = env.fresh_id := rfl

theorem processed_id (pend : Invoice) (text : String) (data : ExtractedInvoiceData)
    (raw : String) (env : ProcEnv) :
    (processed_invoice pend text data raw env).id = pend.id := rfl

theorem processed_hash (pend : Invoice) (text : String) (data : ExtractedInvoiceData)
    (raw : String) (env : ProcEnv) :
    (processed_invoice pend text data raw env).file_hash = pend.file_hash := rfl

theorem processed_mtime (pend : Invoice) (text : String) (data : ExtractedInvoiceData)
    (raw : String) (env : ProcEnv) :
    (processed_invoice pend text data raw env).file_modified_at = pend.file_modified_at := rfl

theorem processed_path (pend : Invoice) (text : String) (data : ExtractedInvoiceData)
    (raw : String) (env : ProcEnv) :
    (processed_invoice pend text data raw env).file_path = pend.file_path := rfl

theorem processed_confidence (pend : Invoice) (text : String) (data : ExtractedInvoiceData)
    (raw : String) (env : ProcEnv) :
    (processed_invoice pend text data raw env).confidence_score
      = data.confidence_score.getD 0.5 := rfl

/-! #### Run-shape classification -/

/-- Every non-short-circuit `process_invoice` run either fails after
the pending write (with the text-extraction call made, and the OpenAI
call made in the structured-extraction-failure case), or succeeds with
the processed record written on top of the pending one. -/
theorem continue_shape (db : Store) (path category : String) (settings : Settings)
    (env : ProcEnv) (exo : Option Invoice) :
    (∃ e tail,
        process_invoice_continue db path category settings env exo =
          ⟨.error e, upsert_invoice db (pending_invoice exo path category env),
           .upsert (pending_invoice exo path category env) :: tail⟩ ∧
        (tail = [.textExtract] ∨ tail = [.textExtract, .openaiCall])) ∨
    (∃ text data raw,
        env.text_result = .ok text ∧
        extract_invoice_data env.openai_result = .ok (data, raw) ∧
        process_invoice_continue db path category settings env exo =
          ⟨.ok (processed_invoice (pending_invoice exo path category env) text data raw env),
           upsert_invoice (upsert_invoice db (pending_invoice exo path category env))
             (processed_invoice (pending_invoice exo path category env) text data raw env),
           [.upsert (pending_invoice exo path category env), .textExtract, .openaiCall,
            .upsert (processed_invoice (pending_invoice exo path category env) text data raw env),
            .logProcess
              (some (processed_invoice (pending_invoice exo path category env) text data raw env).id)
              (some (processed_invoice (pending_invoice exo path category env) text data raw
                env).file_hash)
              "process" "success" none]⟩) := by
  unfold process_invoice_continue
  cases htext : env.text_result with
  | error e => exact .inl ⟨e, [.textExtract], rfl, .inl rfl⟩
  | ok text =>
    cases hkey : settings.openai_api_key with
    | none => exact .inl ⟨"OpenAI API key missing", [.textExtract], rfl, .inl rfl⟩
    | some k =>
      cases hdec : env.decrypt_result with
      | error e => exact .inl ⟨e, [.textExtract], rfl, .inl rfl⟩
      | ok key =>
        cases hx : extract_invoice_data env.openai_result with
        | error e => exact .inl ⟨e, [.textExtract, .openaiCall], rfl, .inr rfl⟩
        | ok pr =>
          obtain ⟨data, raw⟩ := pr
          exact .inr ⟨text, data, raw, rfl, rfl, rfl⟩

/-- The idempotent short-circuit (processor.rs lines 27–31). -/
theorem short_circuit_eq {db : Store} {path : String} {category : String}
    {settings : Settings} {env : ProcEnv} {ex : Invoice}
    (hfind : get_invoice_by_path db path = some ex)
    (hhash : ex.file_hash = env.file_hash)
    (hmtime : ex.file_modified_at = env.file_modified_at) :
    process_invoice db path category settings env = ⟨.ok ex, db, []⟩ := by
  simp only [process_invoice, hfind]
  rw [if_pos ⟨hhash, hmtime⟩]

theorem process_eq_continue_some {db : Store} {path : String} {category : String}
    {settings : Settings} {env : ProcEnv} {ex : Invoice}
    (hfind : get_invoice_by_path db path = some ex)
    (hch : ¬(ex.file_hash = env.file_hash ∧ ex.file_modified_at = env.file_modified_at)) :
    process_invoice db path category settings env
      = process_invoice_continue db path category settings env (some ex) := by
  simp only [process_invoice, hfind]
  rw [if_neg hch]

theorem process_eq_continue_none {db : Store} {path : String} {category : String}
    {settings : Settings} {env : ProcEnv}
    (hfind : get_invoice_by_path db path = none) :
    process_invoice db path category settings env
      = process_invoice_continue db path category settings env none := by
  simp only [process_invoice, hfind]

theorem any_id_of_mem {db : Store} {ex q : Invoice}
    (hmem : ex ∈ db) (hid : ex.id = q.id) :
    db.any (fun r => decide (r.id = q.id)) = true :=
  List.any_eq_true.2 ⟨ex, hmem, decide_eq_true hid⟩

theorem mem_upsert_self {db : Store} {p : Invoice}
    (hp : db.any (fun r => decide (r.id = p.id)) = true) :
    p ∈ upsert_invoice db p := by
  obtain ⟨ex, hmem, hex⟩ := List.any_eq_true.1 hp
  have hexid : ex.id = p.id := of_decide_eq_true hex
  simp only [upsert_invoice]
  rw [if_pos hp]
  exact List.mem_map.2 ⟨ex, hmem, by rw [if_pos hexid]⟩

/-- A failing run never took the short-circuit. -/
theorem process_error_eq_continue {db : Store} {path category : String}
    {settings : Settings} {env : ProcEnv} {e : String}
    (he : (process_invoice db path category settings env).result = .error e) :
    process_invoice db path category settings env
      = process_invoice_continue db path category settings env
          (get_invoice_by_path db path) := by
  cases hfind : get_invoice_by_path db path with
  | none => exact process_eq_continue_none hfind
  | some ex =>
    by_cases hch : ex.file_hash = env.file_hash ∧ ex.file_modified_at = env.file_modified_at
    · rw [short_circuit_eq hfind hch.1 hch.2] at he
      exact absurd he (by simp)
    · exact process_eq_continue_some hfind hch

/-- A successful run returns a record that is found again by a path
lookup on the resulting store and that carries the run's fingerprint
and modified time (store well-formedness and UUID freshness assumed). -/
theorem process_ok_lookup {db : Store} {path category : String} {settings : Settings}
    {env : ProcEnv} {inv : Invoice}
    (wf : StoreWf db)
    (hfresh : ∀ r ∈ db, r.id ≠ env.fresh_id)
    (hok : (process_invoice db path category settings env).result = .ok inv) :
    get_invoice_by_path (process_invoice db path category settings env).db path = some inv ∧
    inv.file_hash = env.file_hash ∧ inv.file_modified_at = env.file_modified_at := by
  cases hfind : get_invoice_by_path db path with
  | some ex =>
    by_cases hch : ex.file_hash = env.file_hash ∧ ex.file_modified_at = env.file_modified_at
    · rw [short_circuit_eq hfind hch.1 hch.2] at hok ⊢
      have hex : ex = inv := by simpa using hok
      subst hex
      exact ⟨hfind, hch.1, hch.2⟩
    · rw [process_eq_continue_some hfind hch] at hok ⊢
      rcases continue_shape db path category settings env (some ex) with
        ⟨e, tail, hsh, -⟩ | ⟨text, data, raw, -, -, hsh⟩
      · rw [hsh] at hok
        exact absurd hok (by simp)
      · rw [hsh] at hok ⊢
        have hinv : processed_invoice (pending_invoice (some ex) path category env)
            text data raw env = inv := by simpa using hok
        subst hinv
        refine ⟨?_, rfl, rfl⟩
        have hany : (db.any (fun r =>
            decide (r.id = (pending_invoice (some ex) path category env).id))) = true :=
          any_id_of_lookup hfind rfl
        have h1 : get_invoice_by_path
            (upsert_invoice db (pending_invoice (some ex) path category env)) path
            = some (pending_invoice (some ex) path category env) :=
          lookup_upsert_replace wf hfind rfl rfl
        have wf1 : StoreWf (upsert_invoice db (pending_invoice (some ex) path category env)) := by
          unfold StoreWf
          rw [upsert_map_id hany]
          exact wf
        exact lookup_upsert_replace wf1 h1 rfl rfl
  | none =>
    rw [process_eq_continue_none hfind] at hok ⊢
    rcases continue_shape db path category settings env none with
      ⟨e, tail, hsh, -⟩ | ⟨text, data, raw, -, -, hsh⟩
    · rw [hsh] at hok
      exact absurd hok (by simp)
    · rw [hsh] at hok ⊢
      have hinv : processed_invoice (pending_invoice none path category env)
          text data raw env = inv := by simpa using hok
      subst hinv
      refine ⟨?_, rfl, rfl⟩
      have hany : (db.any (fun r =>
          decide (r.id = (pending_invoice none path category env).id))) = false :=
        any_id_eq_false (fun r hr => hfresh r hr)
      have h1 : get_invoice_by_path
          (upsert_invoice db (pending_invoice none path category env)) path
          = some (pending_invoice none path category env) :=
        lookup_upsert_append hfind hany rfl
      have wf1 : StoreWf (upsert_invoice db (pending_invoice none path category env)) := by
        unfold StoreWf
        simp only [upsert_invoice]
        rw [if_neg (by simp [hany])]
        rw [List.map_append, List.nodup_append]
        refine ⟨wf, List.nodup_singleton _, ?_⟩
        intro a ha hb
        simp only [List.map_cons, List.map_nil, List.mem_singleton] at hb
        obtain ⟨r, hr, hra⟩ := List.mem_map.1 ha
        exact hfresh r hr (by rw [hra, hb]; exact pending_id_none path category env)
      exact lookup_upsert_replace wf1 h1 rfl rfl

/-- `compute_confidence` is clamped to `[0, 1]`. -/
theorem compute_confidence_bounds (data : ExtractedInvoiceData) :
    0 ≤ compute_confidence data ∧ compute_confidence data ≤ 1 :=
  ⟨le_min (le_max_right _ _) (by norm_num), min_le_right _ _⟩

/-- After post-processing, the confidence score is either a clamped
computed score or the original explicit score. -/
theorem postprocess_confidence_cases (data : ExtractedInvoiceData) :
    (∃ d2, (postprocess_extracted data).confidence_score = some (compute_confidence d2)) ∨
    (postprocess_extracted data).confidence_score = data.confidence_score := by
  obtain ⟨n1, d1, dd, cp, ta, cur, tax, net, notes, cs⟩ := data
  cases cs with
  | none =>
    left
    simp only [postprocess_extracted]
    split <;> split <;> exact ⟨_, rfl⟩
  | some c =>
    right
    simp only [postprocess_extracted]
    split <;> split <;> rfl

/-! ### Claims C6 and C7 -/

/-- C6 (counterexample): the whitespace-only input `" "` matches none of
the five date patterns, yet `normalize_date` does not return it
unchanged — the trimmed input is empty, so the function returns `none`
instead of the raw string. -/
theorem c6_normalize_date_counterexample :
    normalize_date (some " ") = none ∧ normalize_date (some " ") ≠ some " " := by
  decide

/-- C6 (amended): `normalize_date` first trims its input; an absent or
whitespace-only input yields no date; each of the five accepted
patterns maps to the canonical `YYYY-MM-DD` form (in particular all five
example spellings of 2024-03-01 normalize to `"2024-03-01"` and
`"March 1st"` passes through); a trimmed nonempty input matching none of
the patterns is returned trimmed but otherwise unchanged; and whenever a
pattern does match, the output is the canonical rendering of the parsed
date.  The function is total, so normalization never errors. -/
theorem c6_normalize_date_amended :
    (normalize_date (some "2024-03-01") = some "2024-03-01" ∧
     normalize_date (some "01.03.2024") = some "2024-03-01" ∧
     normalize_date (some "01/03/2024") = some "2024-03-01" ∧
     normalize_date (some "2024/03/01") = some "2024-03-01" ∧
     normalize_date (some "2024.03.01") = some "2024-03-01" ∧
     normalize_date (some "March 1st") = some "March 1st") ∧
    (∀ s : String, strEmpty (trimStr s) = true → normalize_date (some s) = none) ∧
    (∀ s : String, strEmpty (trimStr s) = false → firstParse (trimStr s) date_formats = none →
       normalize_date (some s) = some (trimStr s)) ∧
    (∀ s : String, ∀ y m d : Nat, strEmpty (trimStr s) = false →
       firstParse (trimStr s) date_formats = some (y, m, d) →
       normalize_date (some s) = some (formatYmd y m d)) := by
  refine ⟨by decide, ?_, ?_, ?_⟩
  · intro s h
    simp [normalize_date, h]
  · intro s h1 h2
    simp [normalize_date, h1, h2]
  · intro s y m d h1 h2
    simp [normalize_date, h1, h2]

/-- C6 witness: the amended fallback clause applied to the concrete
unparseable input `" hello "`. -/
theorem c6_normalize_date_witness :
    normalize_date (some " hello ") = some "hello" := by
  have h := c6_normalize_date_amended.2.2.1 " hello " (by decide) (by decide)
  exact h.trans (by decide)

/-- C7: when structured extraction returns no explicit confidence score,
the post-processing step fills in `compute_confidence`, which is a base
of 0.4 plus 0.1 for each of invoice number, date, counterparty and
amount present, plus 0.05 when tax or net amount is present, clamped to
`[0, 1]`; with invoice number, date and amount present and counterparty,
tax and net absent, it equals 0.7. -/
theorem c7_default_confidence :
    (∀ data : ExtractedInvoiceData, data.confidence_score = none →
       (postprocess_extracted data).confidence_score = some (compute_confidence data)) ∧
    (∀ data : ExtractedInvoiceData,
       0 ≤ compute_confidence data ∧ compute_confidence data ≤ 1) ∧
    (∀ n d : String, ∀ dd cur : Option String, ∀ amt : ℚ, ∀ notes : String,
       compute_confidence ⟨some n, some d, dd, none, some amt, cur, none, none, notes, none⟩
         = 0.7) := by
  refine ⟨?_, ?_, ?_⟩
  · intro data h
    obtain ⟨n1, d1, dd, cp, ta, cur, tax, net, notes, cs⟩ := data
    simp only at h
    subst h
    simp only [postprocess_extracted]
    split <;> split <;> rfl
  · intro data
    exact ⟨le_min (le_max_right _ _) (by norm_num), min_le_right _ _⟩
  · intro n d dd cur amt notes
    show min (max (0.4 + 0.1 + 0.1 + 0.1 : ℚ) 0) 1 = 0.7
    norm_num

/-- C7 witness: the default-confidence clause applied at a concrete
payload with no explicit score. -/
theorem c7_default_confidence_witness :
    (postprocess_extracted
        ⟨some "R-1", some "2024-03-01", none, none, some 100, none, none, none, "ok", none⟩
      ).confidence_score
      = some (compute_confidence
        ⟨some "R-1", some "2024-03-01", none, none, some 100, none, none, none, "ok", none⟩) :=
  c7_default_confidence.1
    ⟨some "R-1", some "2024-03-01", none, none, some 100, none, none, none, "ok", none⟩ rfl

/-! ### Claim C1 -/

/-- C1: when the stored record's fingerprint and modified time equal the
file's current ones, `process_invoice` returns the stored record
unchanged with no store write and no extraction call; consequently a
second run on the unchanged file (same fingerprint and modified time)
after any successful run returns the same record again with no writes
and no extraction (assuming unique store ids and a fresh UUID). -/
theorem c1_idempotent_short_circuit :
    (∀ (db : Store) (path category : String) (settings : Settings) (env : ProcEnv)
       (ex : Invoice),
       get_invoice_by_path db path = some ex →
       ex.file_hash = env.file_hash →
       ex.file_modified_at = env.file_modified_at →
       process_invoice db path category settings env = ⟨.ok ex, db, []⟩) ∧
    (∀ (db : Store) (path category : String) (settings : Settings) (env env2 : ProcEnv)
       (inv : Invoice),
       StoreWf db →
       (∀ r ∈ db, r.id ≠ env.fresh_id) →
       (process_invoice db path category settings env).result = .ok inv →
       env2.file_hash = env.file_hash →
       env2.file_modified_at = env.file_modified_at →
       process_invoice (process_invoice db path category settings env).db path category
         settings env2
         = ⟨.ok inv, (process_invoice db path category settings env).db, []⟩) := by
  constructor
  · intro db path category settings env ex hfind hh hm
    exact short_circuit_eq hfind hh hm
  · intro db path category settings env env2 inv wf hfresh hok hh2 hm2
    obtain ⟨hlook, hh, hm⟩ := process_ok_lookup wf hfresh hok
    exact short_circuit_eq hlook (by rw [hh, hh2]) (by rw [hm, hm2])

/-- C1 witness: the short-circuit clause at a store that already holds
the record for `a.pdf` with the current fingerprint. -/
theorem c1_idempotent_short_circuit_witness :
    process_invoice [invoiceB] "a.pdf" "revenue" settingsA envPlain
      = ⟨.ok invoiceB, [invoiceB], []⟩ :=
  c1_idempotent_short_circuit.1 [invoiceB] "a.pdf" "revenue" settingsA envPlain invoiceB
    (by decide) rfl rfl

/-! ### Claim C4 -/

/-- C4: every run that does not short-circuit begins its side effects
with an upsert of a record in `pending` status stamped with the new
fingerprint and modified time, strictly before the text-extraction
call (and hence before credential resolution and structured
extraction); if the run fails, the store ends as the original store
with exactly that pending write applied and every upsert in the trace
is in `pending` status — the orchestrator never writes `failed`. -/
theorem c4_pending_intermediate_write :
    ∀ (db : Store) (path category : String) (settings : Settings) (env : ProcEnv),
      (∀ ex, get_invoice_by_path db path = some ex →
         ¬(ex.file_hash = env.file_hash ∧ ex.file_modified_at = env.file_modified_at)) →
      ∃ p rest,
        (process_invoice db path category settings env).trace
          = .upsert p :: .textExtract :: rest ∧
        p.ingestion_status = "pending" ∧
        p.file_hash = env.file_hash ∧
        p.file_modified_at = env.file_modified_at ∧
        (∀ e, (process_invoice db path category settings env).result = .error e →
           (process_invoice db path category settings env).db = upsert_invoice db p ∧
           ∀ i, Ev.upsert i ∈ (process_invoice db path category settings env).trace →
             i.ingestion_status = "pending") := by
  intro db path category settings env hnc
  have heq : process_invoice db path category settings env
      = process_invoice_continue db path category settings env (get_invoice_by_path db path) := by
    cases hfind : get_invoice_by_path db path with
    | some ex => exact process_eq_continue_some hfind (hnc ex hfind)
    | none => exact process_eq_continue_none hfind
  rw [heq]
  rcases continue_shape db path category settings env (get_invoice_by_path db path) with
    ⟨e, tail, hsh, htail⟩ | ⟨text, data, raw, ht, hx, hsh⟩
  · rcases htail with h1 | h1
    · subst h1
      refine ⟨pending_invoice (get_invoice_by_path db path) path category env, [],
        by rw [hsh], rfl, rfl, rfl, ?_⟩
      intro e2 he2
      refine ⟨by rw [hsh], ?_⟩
      intro i hi
      rw [hsh] at hi
      simp only [List.mem_cons, List.not_mem_nil, or_false] at hi
      rcases hi with hi | hi
      · cases hi
        rfl
      · cases hi
    · subst h1
      refine ⟨pending_invoice (get_invoice_by_path db path) path category env, [.openaiCall],
        by rw [hsh], rfl, rfl, rfl, ?_⟩
      intro e2 he2
      refine ⟨by rw [hsh], ?_⟩
      intro i hi
      rw [hsh] at hi
      simp only [List.mem_cons, List.not_mem_nil, or_false] at hi
      rcases hi with hi | hi | hi
      · cases hi
        rfl
      · cases hi
      · cases hi
  · refine ⟨pending_invoice (get_invoice_by_path db path) path category env,
      [.openaiCall,
       .upsert (processed_invoice (pending_invoice (get_invoice_by_path db path) path category
         env) text data raw env),
       .logProcess
         (some (processed_invoice (pending_invoice (get_invoice_by_path db path) path category
           env) text data raw env).id)
         (some (processed_invoice (pending_invoice (get_invoice_by_path db path) path category
           env) text data raw env).file_hash)
         "process" "success" none],
      by rw [hsh], rfl, rfl, rfl, ?_⟩
    intro e2 he2
    rw [hsh] at he2
    exact absurd he2 (by simp)

/-- C4 witness: on an empty store with failing text extraction, the
trace holds a `pending` upsert. -/
theorem c4_pending_intermediate_write_witness :
    ((process_invoice [] "a.pdf" "revenue" settingsA envFail).trace.any
      (fun e => match e with
        | .upsert i => decide (i.ingestion_status = "pending")
        | _ => false)) = true := by
  obtain ⟨p, rest, htr, hp, -, -, -⟩ :=
    c4_pending_intermediate_write [] "a.pdf" "revenue" settingsA envFail
      (fun ex h => by simp [get_invoice_by_path] at h)
  rw [htr]
  simp [hp]

/-! ### Claim C5 -/

/-- C5: a run on a path that already has a stored record keeps that
record's identity in its result and in every store write, carries the
new fingerprint and modified time on a changed file, and never adds a
row to the store; a fresh identity is used only when the path has no
stored record. -/
theorem c5_identity_preservation :
    (∀ (db : Store) (path category : String) (settings : Settings) (env : ProcEnv)
       (ex : Invoice),
       get_invoice_by_path db path = some ex →
       (∀ inv, (process_invoice db path category settings env).result = .ok inv →
          inv.id = ex.id ∧ inv.file_path = some path) ∧
       (∀ i, Ev.upsert i ∈ (process_invoice db path category settings env).trace →
          i.id = ex.id ∧ i.file_path = some path) ∧
       (process_invoice db path category settings env).db.length = db.length ∧
       (¬(ex.file_hash = env.file_hash ∧ ex.file_modified_at = env.file_modified_at) →
          ∀ inv, (process_invoice db path category settings env).result = .ok inv →
            inv.file_hash = env.file_hash ∧
            inv.file_modified_at = env.file_modified_at)) ∧
    (∀ (db : Store) (path category : String) (settings : Settings) (env : ProcEnv),
       get_invoice_by_path db path = none →
       ∀ inv, (process_invoice db path category settings env).result = .ok inv →
         inv.id = env.fresh_id) := by
  constructor
  · intro db path category settings env ex hfind
    by_cases hch : ex.file_hash = env.file_hash ∧ ex.file_modified_at = env.file_modified_at
    · rw [short_circuit_eq hfind hch.1 hch.2]
      refine ⟨?_, ?_, rfl, ?_⟩
      · intro inv he
        have hex : ex = inv := by simpa using he
        subst hex
        exact ⟨rfl, lookup_path hfind⟩
      · intro i hi
        simp at hi
      · intro hcon
        exact absurd hch hcon
    · rw [process_eq_continue_some hfind hch]
      have hany : (db.any (fun r =>
          decide (r.id = (pending_invoice (some ex) path category env).id))) = true :=
        any_id_of_lookup hfind rfl
      rcases continue_shape db path category settings env (some ex) with
        ⟨e, tail, hsh, htail⟩ | ⟨text, data, raw, ht, hx, hsh⟩
      · rw [hsh]
        refine ⟨?_, ?_, upsert_length hany, ?_⟩
        · intro inv he
          exact absurd he (by simp)
        · intro i hi
          simp only [List.mem_cons] at hi
          rcases hi with hi | hi
          · cases hi
            exact ⟨rfl, rfl⟩
          · rcases htail with h1 | h1 <;> subst h1 <;> simp at hi
        · intro hcon inv he
          exact absurd he (by simp)
      · rw [hsh]
        have hany2 : ((upsert_invoice db (pending_invoice (some ex) path category env)).any
            (fun r => decide (r.id =
              (processed_invoice (pending_invoice (some ex) path category env)
                text data raw env).id))) = true :=
          any_id_of_mem (mem_upsert_self hany) rfl
        have hlen : (upsert_invoice
            (upsert_invoice db (pending_invoice (some ex) path category env))
            (processed_invoice (pending_invoice (some ex) path category env)
              text data raw env)).length = db.length := by
          rw [upsert_length hany2, upsert_length hany]
        refine ⟨?_, ?_, hlen, ?_⟩
        · intro inv he
          have hinv : processed_invoice (pending_invoice (some ex) path category env)
              text data raw env = inv := by simpa using he
          subst hinv
          exact ⟨rfl, rfl⟩
        · intro i hi
          simp only [List.mem_cons, List.not_mem_nil, or_false] at hi
          rcases hi with hi | hi | hi | hi | hi
          · cases hi
            exact ⟨rfl, rfl⟩
          · cases hi
          · cases hi
          · cases hi
            exact ⟨rfl, rfl⟩
          · cases hi
        · intro hcon inv he
          have hinv : processed_invoice (pending_invoice (some ex) path category env)
              text data raw env = inv := by simpa using he
          subst hinv
          exact ⟨rfl, rfl⟩
  · intro db path category settings env hfind inv he
    rw [process_eq_continue_none hfind] at he
    rcases continue_shape db path category settings env none with
      ⟨e, tail, hsh, htail⟩ | ⟨text, data, raw, ht, hx, hsh⟩
    · rw [hsh] at he
      exact absurd he (by simp)
    · rw [hsh] at he
      have hinv : processed_invoice (pending_invoice none path category env)
          text data raw env = inv := by simpa using he
      subst hinv
      rfl

/-- C5 witness: a changed file (`h1` → `h2`) on a one-record store
leaves the store with exactly one row. -/
theorem c5_identity_preservation_witness :
    (process_invoice [invoiceB] "a.pdf" "revenue" settingsA envChanged).db.length = 1 :=
  (c5_identity_preservation.1 [invoiceB] "a.pdf" "revenue" settingsA envChanged invoiceB
    (by decide)).2.2.1

/-! ### Claim C10 -/

/-- C10: `apply_extracted` keeps the previous total amount (and
currency) when the extraction omits them, but always overwrites the
tax and net amounts with the newly extracted values — so omitted tax
or net amounts erase previously stored values. -/
theorem c10_asymmetric_field_merge :
    ∀ (invoice : Invoice) (data : ExtractedInvoiceData) (raw : String),
      (data.total_amount = none →
         (apply_extracted invoice data raw).total_amount = invoice.total_amount) ∧
      (∀ t : ℚ, data.total_amount = some t →
         (apply_extracted invoice data raw).total_amount = format_decimal t) ∧
      (data.currency = none →
         (apply_extracted invoice data raw).currency = invoice.currency) ∧
      (∀ c : String, data.currency = some c →
         (apply_extracted invoice data raw).currency = c) ∧
      ((apply_extracted invoice data raw).tax_amount = data.tax_amount.map format_decimal) ∧
      ((apply_extracted invoice data raw).net_amount = data.net_amount.map format_decimal) ∧
      (data.tax_amount = none → (apply_extracted invoice data raw).tax_amount = none) ∧
      (data.net_amount = none → (apply_extracted invoice data raw).net_amount = none) := by
  intro invoice data raw
  refine ⟨?_, ?_, ?_, ?_, rfl, rfl, ?_, ?_⟩
  · intro h
    simp [apply_extracted, h]
  · intro t h
    simp [apply_extracted, h]
  · intro h
    simp [apply_extracted, h]
  · intro c h
    simp [apply_extracted, h]
  · intro h
    simp [apply_extracted, h]
  · intro h
    simp [apply_extracted, h]

/-- C10 witness: extraction omitting every amount keeps the stored
total but erases the stored tax and net amounts. -/
theorem c10_asymmetric_field_merge_witness :
    (apply_extracted invoiceB ⟨none, none, none, none, none, none, none, none, "n", none⟩
      "{}").total_amount = "10.00" ∧
    (apply_extracted invoiceB ⟨none, none, none, none, none, none, none, none, "n", none⟩
      "{}").tax_amount = none ∧
    (apply_extracted invoiceB ⟨none, none, none, none, none, none, none, none, "n", none⟩
      "{}").net_amount = none :=
  ⟨(c10_asymmetric_field_merge invoiceB
      ⟨none, none, none, none, none, none, none, none, "n", none⟩ "{}").1 rfl,
   (c10_asymmetric_field_merge invoiceB
      ⟨none, none, none, none, none, none, none, none, "n", none⟩ "{}").2.2.2.2.2.2.1 rfl,
   (c10_asymmetric_field_merge invoiceB
      ⟨none, none, none, none, none, none, none, none, "n", none⟩ "{}").2.2.2.2.2.2.2 rfl⟩

/-! ### Claim C2 -/

/-- C2 (counterexample): three pairwise-disagreeing samples with a
nonzero final size are reported *stable* — the loop falls through to
`last_size.unwrap_or(0) > 0` instead of dropping the event, and no two
consecutive samples agree. -/
theorem c2_debounce_counterexample :
    debounce_file_event (some 1) (some 2) (some 3) = true ∧
    (1 : Nat) ≠ 2 ∧ (2 : Nat) ≠ 3 := by
  decide

/-- C2 (amended): the filter reports stable iff the first two samples
both succeed and either they agree on a nonzero size, or they disagree
and the third sample succeeds with a nonzero size (whether or not it
matches the second); any stat failure reached reports not-stable. -/
theorem c2_debounce_amended :
    ∀ s1 s2 s3 : Option Nat,
      debounce_file_event s1 s2 s3 = true ↔
        ∃ a b, s1 = some a ∧ s2 = some b ∧
          ((b = a ∧ 0 < b) ∨ (b ≠ a ∧ ∃ c, s3 = some c ∧ 0 < c)) := by
  intro s1 s2 s3
  rcases s1 with _ | a
  · simp [debounce_file_event, debounce_go]
  · rcases s2 with _ | b
    · simp [debounce_file_event, debounce_go]
    · rcases s3 with _ | c
      · by_cases hba : b = a
        · simp [debounce_file_event, debounce_go, hba]
        · simp [debounce_file_event, debounce_go, hba]
      · by_cases hba : b = a
        · simp [debounce_file_event, debounce_go, hba]
        · by_cases hcb : c = b
          · simp [debounce_file_event, debounce_go, hba, hcb]
          · simp [debounce_file_event, debounce_go, hba, hcb]

/-- C2 witness: two equal nonzero samples are stable. -/
theorem c2_debounce_amended_witness :
    debounce_file_event (some 3) (some 3) (some 9) = true :=
  (c2_debounce_amended (some 3) (some 3) (some 9)).mpr
    ⟨3, 3, rfl, rfl, Or.inl ⟨rfl, by decide⟩⟩

/-! ### Claim C3 -/

/-- C3 (counterexample): a scan-dispatched task whose processing fails
after the intermediate pending write leaves no `failed` record and no
failure log entry — only the error notification is published.  The
claim's assertion that enqueueScan-dispatched tasks persist failure is
false. -/
theorem c3_failure_persistence_counterexample :
    ((scan_task [] "a.pdf" "revenue" settingsA envFail).2.1.any
        (fun e => match e with
          | .upsert i => decide (i.ingestion_status = "pending")
          | _ => false)) = true ∧
    (scan_task [] "a.pdf" "revenue" settingsA envFail).2.1.any isFailureMark = false ∧
    (scan_task [] "a.pdf" "revenue" settingsA envFail).2.2
      = [.processingError "boom"] ∧
    (scan_task [] "a.pdf" "revenue" settingsA envFail).1.length = 1 := by
  decide

/-- C3 (amended): only watcher-dispatched tasks persist failure.  When
a watcher task fails and the record is found by path, the coordinator
upserts it with `failed` status and appends a `failed` log entry before
publishing the error; when no record is found, only the error is
published.  A scan-dispatched task that fails never writes a `failed`
status or a failure log entry — it only publishes the error. -/
theorem c3_failure_persistence_amended :
    (∀ (ev : FileEvent) (db : Store) (settings : Settings) (env : EventEnv) (err : String)
       (inv : Invoice),
       ev.kind ≠ .deleted →
       debounce_file_event env.s1 env.s2 env.s3 = true →
       (process_invoice db ev.path ev.category settings env.proc).result = .error err →
       get_invoice_by_path (process_invoice db ev.path ev.category settings env.proc).db
         ev.path = some inv →
       handle_event ev db settings env =
         (upsert_invoice (process_invoice db ev.path ev.category settings env.proc).db
            { inv with ingestion_status := "failed", updated_at := env.fail_now },
          (process_invoice db ev.path ev.category settings env.proc).trace ++
            [.upsert { inv with ingestion_status := "failed", updated_at := env.fail_now },
             .logProcess (some inv.id) (some inv.file_hash) "process" "failed" (some err)],
          [.processingError err])) ∧
    (∀ (ev : FileEvent) (db : Store) (settings : Settings) (env : EventEnv) (err : String),
       ev.kind ≠ .deleted →
       debounce_file_event env.s1 env.s2 env.s3 = true →
       (process_invoice db ev.path ev.category settings env.proc).result = .error err →
       get_invoice_by_path (process_invoice db ev.path ev.category settings env.proc).db
         ev.path = none →
       handle_event ev db settings env =
         ((process_invoice db ev.path ev.category settings env.proc).db,
          (process_invoice db ev.path ev.category settings env.proc).trace,
          [.processingError err])) ∧
    (∀ (db : Store) (path category : String) (settings : Settings) (penv : ProcEnv)
       (err : String),
       (process_invoice db path category settings penv).result = .error err →
       (scan_task db path category settings penv).2.2 = [.processingError err] ∧
       (scan_task db path category settings penv).2.1.any isFailureMark = false ∧
       (scan_task db path category settings penv).1
         = (process_invoice db path category settings penv).db) := by
  refine ⟨?_, ?_, ?_⟩
  · intro ev db settings env err inv hk hdeb hres hlook
    cases hkind : ev.kind with
    | deleted => exact absurd hkind hk
    | created =>
      simp only [handle_event, hkind]
      rw [if_neg (by simp [hdeb])]
      simp only [hres, hlook, mark_failed]
    | modified =>
      simp only [handle_event, hkind]
      rw [if_neg (by simp [hdeb])]
      simp only [hres, hlook, mark_failed]
  · intro ev db settings env err hk hdeb hres hlook
    cases hkind : ev.kind with
    | deleted => exact absurd hkind hk
    | created =>
      simp only [handle_event, hkind]
      rw [if_neg (by simp [hdeb])]
      simp only [hres, hlook]
    | modified =>
      simp only [handle_event, hkind]
      rw [if_neg (by simp [hdeb])]
      simp only [hres, hlook]
  · intro db path category settings penv err hres
    have heq := process_error_eq_continue hres
    rcases continue_shape db path category settings penv (get_invoice_by_path db path) with
      ⟨e, tail, hsh, htail⟩ | ⟨text, data, raw, ht, hx, hsh⟩
    · rw [heq, hsh] at hres
      have he : e = err := by simpa using hres
      subst he
      have hscan : scan_task db path category settings penv =
          ((process_invoice db path category settings penv).db,
           (process_invoice db path category settings penv).trace,
           [.processingError e]) := by
        simp only [scan_task, heq, hsh]
      rw [hscan]
      refine ⟨rfl, ?_, rfl⟩
      rw [heq, hsh]
      rcases htail with h1 | h1 <;> subst h1 <;>
        simp [isFailureMark, pending_status]
    · rw [heq, hsh] at hres
      exact absurd hres (by simp)

/-- C3 witness: the scan-task clause at the concrete failing run. -/
theorem c3_failure_persistence_witness :
    (scan_task [] "c.pdf" "payable" settingsA envFail).2.2
      = [.processingError "boom"] ∧
    (scan_task [] "c.pdf" "payable" settingsA envFail).2.1.any isFailureMark = false ∧
    (scan_task [] "c.pdf" "payable" settingsA envFail).1
      = (process_invoice [] "c.pdf" "payable" settingsA envFail).db :=
  c3_failure_persistence_amended.2.2 [] "c.pdf" "payable" settingsA envFail "boom" rfl

/-! ### Claim C8 -/

/-- C8 (counterexample): an explicit out-of-range confidence score from
the extraction collaborator is stored unclamped — a run whose payload
carries the explicit score 5 persists a record whose stored confidence
score is 5, outside `[0, 1]`.  Only the computed default is clamped. -/
theorem c8_confidence_range_counterexample :
    invoiceOverOut.confidence_score = 5 ∧
    (process_invoice [] "a.pdf" "revenue" settingsA envOver).db.map Invoice.confidence_score
      = [5] ∧
    ¬((5 : ℚ) ≤ 1) := by
  refine ⟨by decide, by decide, by norm_num⟩

/-- C8 (amended): for every run that performs extraction (does not
short-circuit) and succeeds, the stored confidence score lies in
`[0, 1]` provided the extraction payload carried no explicit score
(the computed default is clamped) or carried an explicit score already
in `[0, 1]` (it is passed through unchanged). -/
theorem c8_confidence_range_amended :
    ∀ (db : Store) (path category : String) (settings : Settings) (env : ProcEnv)
      (data : ExtractedInvoiceData) (raw : String) (inv : Invoice),
      env.openai_result = .ok (data, raw) →
      (data.confidence_score = none ∨
        ∃ c, data.confidence_score = some c ∧ 0 ≤ c ∧ c ≤ 1) →
      (process_invoice db path category settings env).result = .ok inv →
      (process_invoice db path category settings env).trace ≠ [] →
      0 ≤ inv.confidence_score ∧ inv.confidence_score ≤ 1 := by
  intro db path category settings env data raw inv hopenai hrange hok htr
  have heq : process_invoice db path category settings env
      = process_invoice_continue db path category settings env
          (get_invoice_by_path db path) := by
    cases hfind : get_invoice_by_path db path with
    | none => exact process_eq_continue_none hfind
    | some ex =>
      by_cases hch : ex.file_hash = env.file_hash ∧ ex.file_modified_at = env.file_modified_at
      · rw [short_circuit_eq hfind hch.1 hch.2] at htr
        exact absurd rfl htr
      · exact process_eq_continue_some hfind hch
  rw [heq] at hok
  rcases continue_shape db path category settings env (get_invoice_by_path db path) with
    ⟨e, tail, hsh, -⟩ | ⟨text, data2, raw2, ht, hx, hsh⟩
  · rw [hsh] at hok
    exact absurd hok (by simp)
  · rw [hsh] at hok
    have hinv : processed_invoice
        (pending_invoice (get_invoice_by_path db path) path category env)
        text data2 raw2 env = inv := by simpa using hok
    subst hinv
    rw [hopenai] at hx
    simp only [extract_invoice_data, Except.ok.injEq, Prod.mk.injEq] at hx
    rw [processed_confidence, ← hx.1]
    rcases postprocess_confidence_cases data with ⟨d2, hcc⟩ | hcc
    · rw [hcc]
      simp only [Option.getD_some]
      exact compute_confidence_bounds d2
    · rw [hcc]
      rcases hrange with hnone | ⟨c, hc, hc0, hc1⟩
      · rw [hnone]
        simp only [Option.getD_none]
        norm_num
      · rw [hc]
        simp only [Option.getD_some]
        exact ⟨hc0, hc1⟩

/-- C8 witness: the amended theorem at a run whose payload has no
explicit score. -/
theorem c8_confidence_range_witness :
    0 ≤ invoicePlainOut.confidence_score ∧ invoicePlainOut.confidence_score ≤ 1 :=
  c8_confidence_range_amended [] "b.pdf" "revenue" settingsA envPlain dataPlain "{}"
    invoicePlainOut rfl (.inl rfl) rfl (by decide)

/-! ### Claim C9 -/

/-- C9: a `deleted` event performs no extraction or log side effect,
publishes only the missing-path notification, deletes no record, and
rewrites exactly the records whose path matches — setting their status
to `missing` and restamping `updated_at` while every other field is
unchanged; non-matching records are untouched. -/
theorem c9_deleted_marks_missing :
    ∀ (ev : FileEvent) (db : Store) (settings : Settings) (env : EventEnv),
      ev.kind = .deleted →
      (handle_event ev db settings env).2.1 = [] ∧
      (handle_event ev db settings env).2.2 = [.invoiceMissing ev.path] ∧
      (handle_event ev db settings env).1.length = db.length ∧
      (∀ i : Nat, ∀ r r', db[i]? = some r →
        ((handle_event ev db settings env).1)[i]? = some r' →
        (r.file_path = some ev.path →
           r'.ingestion_status = "missing" ∧ r'.updated_at = env.missing_now ∧
           r'.id = r.id ∧ r'.category = r.category ∧ r'.file_path = r.file_path ∧
           r'.file_hash = r.file_hash ∧ r'.file_modified_at = r.file_modified_at ∧
           r'.ocr_text = r.ocr_text ∧ r'.extracted_json = r.extracted_json ∧
           r'.confidence_score = r.confidence_score ∧
           r'.invoice_number = r.invoice_number ∧ r'.invoice_date = r.invoice_date ∧
           r'.due_date = r.due_date ∧ r'.counterparty_name = r.counterparty_name ∧
           r'.total_amount = r.total_amount ∧ r'.currency = r.currency ∧
           r'.tax_amount = r.tax_amount ∧ r'.net_amount = r.net_amount ∧
           r'.status = r.status ∧ r'.paid_at = r.paid_at ∧
           r'.created_at = r.created_at) ∧
        (r.file_path ≠ some ev.path → r' = r)) := by
  intro ev db settings env hk
  have hh : handle_event ev db settings env
      = (mark_invoice_missing db ev.path env.missing_now, [], [.invoiceMissing ev.path]) := by
    simp only [handle_event, hk]
  rw [hh]
  refine ⟨rfl, rfl, by simp [mark_invoice_missing], ?_⟩
  intro i r r' hr hr'
  simp only [mark_invoice_missing, List.getElem?_map, hr, Option.map_some'] at hr'
  have hfr : (if r.file_path = some ev.path then
      { r with ingestion_status := "missing", updated_at := env.missing_now } else r) = r' :=
    Option.some_inj.mp hr'
  by_cases hp : r.file_path = some ev.path
  · rw [if_pos hp] at hfr
    subst hfr
    exact ⟨fun _ => ⟨rfl, rfl, rfl, rfl, rfl, rfl, rfl, rfl, rfl, rfl, rfl, rfl, rfl, rfl,
      rfl, rfl, rfl, rfl, rfl, rfl, rfl⟩, fun hnp => absurd hp hnp⟩
  · rw [if_neg hp] at hfr
    subst hfr
    exact ⟨fun hp2 => absurd hp2 hp, fun _ => rfl⟩

/-- C9 witness: a deletion event on a one-record store emits no side
effects and keeps the row count. -/
theorem c9_deleted_marks_missing_witness :
    (handle_event evDel [invoiceB] settingsA envEvFail).2.1 = [] ∧
    (handle_event evDel [invoiceB] settingsA envEvFail).1.length = 1 := by
  have h := c9_deleted_marks_missing evDel [invoiceB] settingsA envEvFail rfl
  exact ⟨h.1, h.2.2.1⟩

end Billy
